import Mathlib

set_option maxHeartbeats 1000000

namespace Sesam

/-! Shallow embedding of `sesam.py` (sesam-py command line client), covering the
entity filter, the structured-output verification path, the scheduler run
loop, spec loading and the config-sync comparator. -/

mutual
/-- JSON-like values as produced by `json.load` / `resp.json()`.  Numbers are
split into integers (`jint`) and decimal/floating values (`jfloat ip frac`),
the latter carrying the integer part and the fractional digit string so that
the textual form `str(value)` is `toString ip ++ "." ++ frac` (Python prints
`3.0` for the float `3.0`, `3.5` for `3.5`, and `Decimal("3.00")` as
`3.00`). -/
inductive JValue where
  | jnull
  | jbool (b : Bool)
  | jint (n : Int)
  | jfloat (ip : Int) (frac : String)
  | jstr (s : String)
  | jobj (fields : JFields)
  | jarr (items : JArr)
deriving DecidableEq, Repr

/-- Association list of object fields, in insertion order (Python dicts keep
insertion order). -/
inductive JFields where
  | nil
  | cons (k : String) (v : JValue) (rest : JFields)
deriving DecidableEq, Repr

/-- List of array items. -/
inductive JArr where
  | nil
  | cons (v : JValue) (rest : JArr)
deriving DecidableEq, Repr
end

/-- Glob matching with the semantics of Python's `fnmatch.fnmatch` on a
case-sensitive filesystem: `*` matches any (possibly empty) character
sequence, `?` matches exactly one character, and every other pattern
character matches itself.  (Bracket character classes do not occur in any
blacklist pattern of this development and are not modelled.) -/
def globMatchFuel : Nat → List Char → List Char → Bool
  | 0, _, _ => false
  | _ + 1, [], [] => true
  | f + 1, '*' :: ps, [] => globMatchFuel f ps []
  | f + 1, '*' :: ps, c :: cs => globMatchFuel f ps (c :: cs) || globMatchFuel f ('*' :: ps) cs
  | f + 1, '?' :: ps, _ :: cs => globMatchFuel f ps cs
  | f + 1, p :: ps, c :: cs => (p == c) && globMatchFuel f ps cs
  | _ + 1, _ :: _, [] => false
  | _ + 1, [], _ :: _ => false

/-- Each recursive step shrinks `ps.length + cs.length` by at least one, so
fuel `ps.length + cs.length + 1` never runs out. -/
def globMatch (ps cs : List Char) : Bool :=
  globMatchFuel (ps.length + cs.length + 1) ps cs

/-- `fnmatch(name, pattern)` from Python's `fnmatch` module. -/
def fnmatch (name pat : String) : Bool := globMatch pat.toList name.toList

/-- `s.startswith(p)` (kernel-computable form of `String.startsWith`). -/
def strStartsWith (s p : String) : Bool := p.toList.isPrefixOf s.toList

/-- `s.replace("\\.", ".")`: replace each literal backslash-dot by a dot,
left to right, non-overlapping. -/
def replaceBackslashDot : List Char → List Char
  | [] => []
  | '\\' :: '.' :: rest => '.' :: replaceBackslashDot rest
  | c :: rest => c :: replaceBackslashDot rest

/-- The part of a parsed test specification the entity filter and the
structured comparison need: the `blacklist` spec field (absent or non-list
blacklists behave as the empty list, since `if blacklist and
isinstance(blacklist, list)` is then false and `is_path_blacklisted` returns
`False`, exactly as `List.any []` does). -/
structure TestSpec where
  blacklist : List String
deriving DecidableEq, Repr

/-- `TestSpec.is_path_blacklisted` (src/sesam.py:131-140): the property path
is `"".join(path)` — the path components concatenated WITHOUT a separator —
with every literal backslash-dot replaced by a dot, and the result is tested
against each blacklist pattern with `fnmatch`. -/
def TestSpec.is_path_blacklisted (spec : TestSpec) (path : List String) : Bool :=
  let prop_path := replaceBackslashDot ((path.map String.toList).flatten)
  spec.blacklist.any fun pat => globMatch pat.toList prop_path

mutual
/-- The inner `filter_item` of `SesamCmdClient.filter_entity`
(src/sesam.py:619-643).  For a dict, each key is examined in order: an
underscore key is kept untouched when it is `_id`, or `_deleted` with value
`True`, and removed otherwise; a non-underscore key is removed when
`is_path_blacklisted(parent_path + [key])` holds, and otherwise its value is
filtered recursively — the source passes `parent_path`, not `path`, to the
recursive call, so the path argument never grows beyond one component.
Lists are filtered element-wise; scalars are returned unchanged. -/
def filter_item (spec : TestSpec) (parent_path : List String) : JValue → JValue
  | .jobj fields => .jobj (filterFields spec parent_path fields)
  | .jarr items => .jarr (filterArr spec parent_path items)
  | v => v
termination_by structural v => v

/-- The dict branch of `filter_item`, one field at a time. -/
def filterFields (spec : TestSpec) (parent_path : List String) : JFields → JFields
  | .nil => .nil
  | .cons k v rest =>
    if strStartsWith k "_" then
      if k == "_id" || (k == "_deleted" && v == JValue.jbool true) then
        .cons k v (filterFields spec parent_path rest)
      else
        filterFields spec parent_path rest
    else if spec.is_path_blacklisted (parent_path ++ [k]) then
      filterFields spec parent_path rest
    else
      .cons k (filter_item spec parent_path v) (filterFields spec parent_path rest)
termination_by structural fs => fs

/-- The list branch of `filter_item`. -/
def filterArr (spec : TestSpec) (parent_path : List String) : JArr → JArr
  | .nil => .nil
  | .cons v rest => .cons (filter_item spec parent_path v) (filterArr spec parent_path rest)
termination_by structural xs => xs
end

/-- `SesamCmdClient.filter_entity`: `filter_item([], entity)`. -/
def filter_entity (spec : TestSpec) (entity : JValue) : JValue :=
  filter_item spec [] entity

example : fnmatch "meta" "meta.*" = false := by decide
example : fnmatch "meta.ts" "meta.*" = true := by decide
example : fnmatch "metats" "meta*" = true := by decide

/-- Dictionary lookup (`d[k]` / `k in d`); JSON objects decoded by
`json.load` have unique keys, so first-match lookup is unambiguous. -/
def JFields.lookup : JFields → String → Option JValue
  | .nil, _ => none
  | .cons k v rest, key => if k == key then some v else JFields.lookup rest key

/-- Number of fields (`len(d)`). -/
def JFields.length : JFields → Nat
  | .nil => 0
  | .cons _ _ rest => 1 + JFields.length rest

/-- The keys of a dict, in insertion order (`list(d.keys())`). -/
def JFields.keys : JFields → List String
  | .nil => []
  | .cons k _ rest => k :: JFields.keys rest

/-- The fields as a Lean association list. -/
def JFields.toList : JFields → List (String × JValue)
  | .nil => []
  | .cons k v rest => (k, v) :: JFields.toList rest

/-- Array items as a Lean list. -/
def JArr.toList : JArr → List JValue
  | .nil => []
  | .cons v rest => v :: JArr.toList rest

/-- Build a `JArr` from a Lean list. -/
def JArr.ofList : List JValue → JArr
  | [] => .nil
  | v :: rest => .cons v (JArr.ofList rest)

mutual
/-- Python `==` on the JSON values of this development: dicts compare by key
set and per-key value equality (insertion order is irrelevant), lists
element-wise in order, scalars by value; an integer and a decimal/floating
value with an all-zero fraction (e.g. `3 == 3.0`) compare equal. -/
def pyEqV : JValue → JValue → Bool
  | .jnull, .jnull => true
  | .jbool a, .jbool b => a == b
  | .jint a, .jint b => a == b
  | .jint a, .jfloat ip f => a == ip && f.toList.all (· == '0')
  | .jfloat ip f, .jint b => ip == b && f.toList.all (· == '0')
  | .jfloat a fa, .jfloat b fb => a == b && fa == fb
  | .jstr a, .jstr b => a == b
  | .jobj f1, .jobj f2 => f1.length == f2.length && pyEqFields f1 f2
  | .jarr a, .jarr b => pyEqArr a b
  | _, _ => false
termination_by structural v _ => v

/-- Each key of the first dict is present in the second with a `==`-equal
value. -/
def pyEqFields : JFields → JFields → Bool
  | .nil, _ => true
  | .cons k v rest, f2 =>
    (match f2.lookup k with
     | some w => pyEqV v w
     | none => false) && pyEqFields rest f2
termination_by structural f _ => f

/-- List `==`: same length, equal items pointwise. -/
def pyEqArr : JArr → JArr → Bool
  | .nil, .nil => true
  | .cons a ra, .cons b rb => pyEqV a b && pyEqArr ra rb
  | _, _ => false
termination_by structural a _ => a
end

/-- The record of the spec's blacklist scenario:
`{"_id":"x","meta":{"ts":123},"val":1}`. -/
def entityC1 : JValue :=
  .jobj (.cons "_id" (.jstr "x")
    (.cons "meta" (.jobj (.cons "ts" (.jint 123) .nil))
      (.cons "val" (.jint 1) .nil)))

/-- The record the spec claims the blacklist scenario produces:
`{"_id":"x","val":1}`. -/
def claimedC1 : JValue :=
  .jobj (.cons "_id" (.jstr "x") (.cons "val" (.jint 1) .nil))

/-- The spec of the blacklist scenario: `blacklist = ["meta.*"]`. -/
def specC1 : TestSpec := ⟨["meta.*"]⟩

/-- The decision `filter_item` makes for one key of a dict whose filtered
path argument is `parent_path`: underscore keys are kept exactly when they
are `_id` or `_deleted` with value `True` (the blacklist is never consulted
for them), and a non-underscore key is kept exactly when
`is_path_blacklisted(parent_path + [key])` is false. -/
def keepKey (spec : TestSpec) (parent_path : List String) (k : String) (v : JValue) : Bool :=
  if strStartsWith k "_" then k == "_id" || (k == "_deleted" && v == JValue.jbool true)
  else !spec.is_path_blacklisted (parent_path ++ [k])

theorem keys_filterFields (spec : TestSpec) (pp : List String) :
    (fs : JFields) →
    (filterFields spec pp fs).keys
      = ((fs.toList.filter fun kv => keepKey spec pp kv.1 kv.2).map Prod.fst)
  | .nil => rfl
  | .cons k v rest => by
    have ih := keys_filterFields spec pp rest
    by_cases h1 : strStartsWith k "_" = true
    · by_cases h2 : (k == "_id" || (k == "_deleted" && v == JValue.jbool true)) = true
      · simp [filterFields, JFields.keys, JFields.toList, keepKey, h1, h2, ih]
      · simp [filterFields, JFields.keys, JFields.toList, keepKey, h1, h2, ih]
    · by_cases h3 : spec.is_path_blacklisted (pp ++ [k]) = true
      · simp [filterFields, JFields.keys, JFields.toList, keepKey, h1, h3, ih]
      · simp [filterFields, JFields.keys, JFields.toList, keepKey, h1, h3, ih]

/-- C1: FALSE as stated.  With blacklist `["meta.*"]`, the record
`{"_id":"x","meta":{"ts":123},"val":1}` filters to itself, not to
`{"_id":"x","val":1}`: the paths handed to `is_path_blacklisted` are single
bare key names joined without dots, so the pattern `meta.*` (which requires
a literal dot) matches neither `meta` nor the nested key `ts`.  The filtered
record is therefore not Python-`==` to the record the claim names. -/
theorem C1_counterexample :
    filter_entity specC1 entityC1 = entityC1 ∧
    pyEqV (filter_entity specC1 entityC1) claimedC1 = false := by
  exact ⟨by decide, by decide⟩

/-- C1 (amended): with blacklist `["meta.*"]` the scenario record filters to
itself unchanged; and in general a top-level key of a filtered record
survives exactly when `keepKey` says so — underscore keys are governed by
the underscore rule alone (kept iff `_id`, or `_deleted` with value `True`,
the blacklist being irrelevant to them), and a non-underscore key is dropped
iff its own single-component path matches a blacklist pattern; dotted paths
from the root are never formed. -/
theorem C1_blacklist_amended :
    filter_entity specC1 entityC1 = entityC1 ∧
    ∀ (spec : TestSpec) (fields : JFields),
      (filterFields spec [] fields).keys
        = ((fields.toList.filter fun kv => keepKey spec [] kv.1 kv.2).map Prod.fst) :=
  ⟨by decide, fun spec fields => keys_filterFields spec [] fields⟩

mutual
theorem filter_item_idem (spec : TestSpec) (pp : List String) :
    (v : JValue) → filter_item spec pp (filter_item spec pp v) = filter_item spec pp v
  | .jnull => rfl
  | .jbool _ => rfl
  | .jint _ => rfl
  | .jfloat _ _ => rfl
  | .jstr _ => rfl
  | .jobj fields => by simp [filter_item, filterFields_idem spec pp fields]
  | .jarr items => by simp [filter_item, filterArr_idem spec pp items]

theorem filterFields_idem (spec : TestSpec) (pp : List String) :
    (fs : JFields) → filterFields spec pp (filterFields spec pp fs) = filterFields spec pp fs
  | .nil => rfl
  | .cons k v rest => by
    have ih := filterFields_idem spec pp rest
    by_cases h1 : strStartsWith k "_" = true
    · by_cases h2 : (k == "_id" || (k == "_deleted" && v == JValue.jbool true)) = true
      · simp [filterFields, h1, h2, ih]
      · simp [filterFields, h1, h2, ih]
    · by_cases h3 : spec.is_path_blacklisted (pp ++ [k]) = true
      · simp [filterFields, h1, h3, ih]
      · simp [filterFields, h1, h3, ih, filter_item_idem spec pp v]

theorem filterArr_idem (spec : TestSpec) (pp : List String) :
    (xs : JArr) → filterArr spec pp (filterArr spec pp xs) = filterArr spec pp xs
  | .nil => rfl
  | .cons v rest => by
    simp [filterArr, filter_item_idem spec pp v, filterArr_idem spec pp rest]
end

/-- C5: the entity filter is idempotent — for every record `x` (any nesting
of dicts, lists and scalars) and every fixed test spec,
`filter_entity spec (filter_entity spec x) = filter_entity spec x`
(structural equality of the results, which implies Python `==`). -/
theorem C5_filter_idempotent (spec : TestSpec) (x : JValue) :
    filter_entity spec (filter_entity spec x) = filter_entity spec x :=
  filter_item_idem spec [] x

/-- `str(value).endswith(".0")` for a decimal/floating value with integer
part `ip` and fraction digits `frac`: the textual form is
`str(ip) ++ "." ++ frac`, whose last two characters are `".0"` exactly when
`frac = "0"`, or when `frac` itself ends in `".0"` (impossible for a digit
string, kept for fidelity). -/
def textualEndsWithDot0 (frac : String) : Bool :=
  frac == "0" || ['.', '0'].isSuffixOf frac.toList

mutual
/-- `SesamNode._fix_decimal_to_ints` (src/sesam.py:266-279): recurse through
dicts and lists; a `Decimal`/`float` leaf whose textual form ends in `".0"`
is replaced by `int(value)` (its integer part, since the fraction is zero);
every other value is returned unchanged. -/
def fix_decimal_to_ints : JValue → JValue
  | .jobj fields => .jobj (fixFields fields)
  | .jarr items => .jarr (fixArr items)
  | .jfloat ip frac => if textualEndsWithDot0 frac then .jint ip else .jfloat ip frac
  | v => v
termination_by structural v => v

/-- Dict branch of `_fix_decimal_to_ints`: every value is fixed in place. -/
def fixFields : JFields → JFields
  | .nil => .nil
  | .cons k v rest => .cons k (fix_decimal_to_ints v) (fixFields rest)
termination_by structural fs => fs

/-- List branch of `_fix_decimal_to_ints`: every item is fixed in place. -/
def fixArr : JArr → JArr
  | .nil => .nil
  | .cons v rest => .cons (fix_decimal_to_ints v) (fixArr rest)
termination_by structural xs => xs
end

/-- Lexicographic comparison of character lists by code point — the order
Python uses to compare the string sort keys in `sorted(..., key=...)`. -/
def charListLe : List Char → List Char → Bool
  | [], _ => true
  | _ :: _, [] => false
  | a :: as, b :: bs => if a = b then charListLe as bs else decide (a.toNat < b.toNat)

/-- The sort key `lambda e: e['_id']` of `verify`/`update` (src/sesam.py:745),
as a character list.  The records of this development carry string
identities; a missing or non-string `_id` is mapped to the empty key. -/
def idKey (e : JValue) : List Char :=
  match e with
  | .jobj fields =>
    match fields.lookup "_id" with
    | some (.jstr s) => s.toList
    | _ => []
  | _ => []

/-- The record order produced by `sorted(..., key=lambda e: e['_id'])`. -/
def recLe (a b : JValue) : Prop := charListLe (idKey a) (idKey b) = true

instance : DecidableRel recLe := fun _ _ => instDecidableEqBool _ _

/-- `sorted(entities, key=lambda e: e['_id'])`: a stable sort by identity
key (Python's sorted is stable; so is insertion sort, which inserts a new
element after all `recLe`-smaller-or-equal ones). -/
def sortById (l : List JValue) : List JValue := List.insertionSort recLe l

/-- Insert a field into a key-sorted field list (for `sort_keys=True`). -/
def insertFieldByKey (k : String) (v : JValue) : JFields → JFields
  | .nil => .cons k v .nil
  | .cons k2 v2 rest =>
    if charListLe k.toList k2.toList then .cons k v (.cons k2 v2 rest)
    else .cons k2 v2 (insertFieldByKey k v rest)

/-- Sort the fields of one dict level by key (for `sort_keys=True`). -/
def sortFieldsByKey : JFields → JFields
  | .nil => .nil
  | .cons k v rest => insertFieldByKey k v (sortFieldsByKey rest)

mutual
/-- Canonical form modelling equality of
`json.dumps(value, ensure_ascii=False, indent=2, sort_keys=True)` outputs:
the dump is a deterministic serialization that sorts dict keys and is
injective on decoded JSON values up to dict key order, so two values dump to
the same text exactly when their recursively key-sorted forms coincide. -/
def canon : JValue → JValue
  | .jobj fields => .jobj (sortFieldsByKey (canonFields fields))
  | .jarr items => .jarr (canonArr items)
  | v => v
termination_by structural v => v

/-- `canon` applied to every field value. -/
def canonFields : JFields → JFields
  | .nil => .nil
  | .cons k v rest => .cons k (canon v) (canonFields rest)
termination_by structural fs => fs

/-- `canon` applied to every list item. -/
def canonArr : JArr → JArr
  | .nil => .nil
  | .cons v rest => .cons (canon v) (canonArr rest)
termination_by structural xs => xs
end

/-- Per-spec result of the structured comparison in `verify`. -/
inductive VerifyOutcome where
  | pass
  | lengthMismatch (expectedLen currentLen : Nat)
  | contentMismatch
deriving DecidableEq, Repr

/-- The structured (`"json"` endpoint) comparison `SesamCmdClient.verify`
performs for one test spec (src/sesam.py:739-766).  `expected` is
`test_spec.expected_entities` — the baseline file as loaded by `json.load`,
in file order and with no numeric normalization — and `fetchedRaw` is the
JSON array of records from the pipe's entities endpoint, to which
`get_pipe_entities` applies `_fix_decimal_to_ints` (on the whole array,
i.e. element-wise).  `verify` filters each fetched record and sorts the
filtered current records (and only them) by `e['_id']`.  If the two counts
differ the spec fails with a length-mismatch message (`"Length mismatch
... expected %d got %d"`); otherwise the key-sorted canonical
serializations are compared and any difference is a content mismatch. -/
def verifyJsonSpec (spec : TestSpec) (expected : List JValue) (fetchedRaw : List JValue) :
    VerifyOutcome :=
  let current := sortById ((fetchedRaw.map fix_decimal_to_ints).map (filter_entity spec))
  if current.length ≠ expected.length then
    .lengthMismatch expected.length current.length
  else if expected.map canon ≠ current.map canon then .contentMismatch
  else .pass

theorem char_eq_of_toNat_eq {a b : Char} (h : a.toNat = b.toNat) : a = b :=
  Char.eq_of_val_eq (UInt32.toNat.inj h)

theorem charListLe_total : ∀ a b : List Char, charListLe a b = true ∨ charListLe b a = true
  | [], _ => Or.inl rfl
  | _ :: _, [] => Or.inr rfl
  | a :: as, b :: bs => by
    by_cases hab : a = b
    · subst hab
      rcases charListLe_total as bs with h | h
      · exact Or.inl (by simp [charListLe, h])
      · exact Or.inr (by simp [charListLe, h])
    · rcases Nat.lt_or_ge a.toNat b.toNat with hlt | hge
      · exact Or.inl (by simp [charListLe, hab, hlt])
      · have hne : b.toNat ≠ a.toNat := fun h => hab (char_eq_of_toNat_eq h.symm)
        have hlt : b.toNat < a.toNat := lt_of_le_of_ne hge hne
        have hba : b ≠ a := fun h => hab h.symm
        exact Or.inr (by simp [charListLe, hba, hlt])

theorem charListLe_antisymm :
    ∀ a b : List Char, charListLe a b = true → charListLe b a = true → a = b
  | [], [], _, _ => rfl
  | [], _ :: _, _, h2 => by simp [charListLe] at h2
  | _ :: _, [], h1, _ => by simp [charListLe] at h1
  | a :: as, b :: bs, h1, h2 => by
    by_cases hab : a = b
    · subst hab
      simp only [charListLe, if_pos rfl] at h1 h2
      exact congrArg (a :: ·) (charListLe_antisymm as bs h1 h2)
    · have hba : b ≠ a := fun h => hab h.symm
      simp only [charListLe, if_neg hab, decide_eq_true_eq] at h1
      simp only [charListLe, if_neg hba, decide_eq_true_eq] at h2
      exact absurd h2 (Nat.not_lt.mpr (Nat.le_of_lt h1))

theorem charListLe_trans :
    ∀ a b c : List Char, charListLe a b = true → charListLe b c = true → charListLe a c = true
  | [], _, _, _, _ => rfl
  | _ :: _, [], _, h1, _ => by simp [charListLe] at h1
  | _ :: _, _ :: _, [], _, h2 => by simp [charListLe] at h2
  | a :: as, b :: bs, c :: cs, h1, h2 => by
    by_cases hab : a = b <;> by_cases hbc : b = c
    · subst hab; subst hbc
      simp only [charListLe, if_pos rfl] at h1 h2 ⊢
      exact charListLe_trans as bs cs h1 h2
    · subst hab
      simp only [charListLe, if_neg hbc] at h2 ⊢
      exact h2
    · subst hbc
      simp only [charListLe, if_neg hab] at h1 ⊢
      exact h1
    · simp only [charListLe, if_neg hab, decide_eq_true_eq] at h1
      simp only [charListLe, if_neg hbc, decide_eq_true_eq] at h2
      have hac : a ≠ c := fun h => by
        subst h
        exact absurd h2 (Nat.not_lt.mpr (Nat.le_of_lt h1))
      simp only [charListLe, if_neg hac, decide_eq_true_eq]
      exact Nat.lt_trans h1 h2

instance : IsTotal JValue recLe :=
  ⟨fun a b => charListLe_total (idKey a) (idKey b)⟩

instance : IsTrans JValue recLe :=
  ⟨fun a b c => charListLe_trans (idKey a) (idKey b) (idKey c)⟩

/-- `{"_id":"a"}` -/
def entA : JValue := .jobj (.cons "_id" (.jstr "a") .nil)

/-- `{"_id":"b"}` -/
def entB : JValue := .jobj (.cons "_id" (.jstr "b") .nil)

/-- `{"_id":"a","v":3}` -/
def entA3 : JValue := .jobj (.cons "_id" (.jstr "a") (.cons "v" (.jint 3) .nil))

/-- `{"_id":"a","v":3.0}` -/
def entA30 : JValue := .jobj (.cons "_id" (.jstr "a") (.cons "v" (.jfloat 3 "0") .nil))

/-- C3: in the structured comparison, whenever the current record count
differs from the expected record count, the spec fails with the
length-mismatch reason carrying the two counts (expected, got) — never with
a content mismatch and never with a pass: the content comparison of the
canonical serializations is only reached when the counts agree. -/
theorem C3_length_mismatch_first (spec : TestSpec) (expected fetchedRaw : List JValue)
    (h : (sortById ((fetchedRaw.map fix_decimal_to_ints).map (filter_entity spec))).length
          ≠ expected.length) :
    verifyJsonSpec spec expected fetchedRaw
      = .lengthMismatch expected.length
          (sortById ((fetchedRaw.map fix_decimal_to_ints).map (filter_entity spec))).length := by
  simp only [verifyJsonSpec, if_pos h]

/-- C3 witness: expected `[{_id:"a"},{_id:"b"}]` against fetched
`[{_id:"a"}]` fails with the length-mismatch reason `expected 2 got 1`,
not with a content diff. -/
theorem C3_length_mismatch_first_witness :
    verifyJsonSpec ⟨[]⟩ [entA, entB] [entA] = .lengthMismatch 2 1 :=
  (C3_length_mismatch_first ⟨[]⟩ [entA, entB] [entA] (by decide)).trans (by decide)

/-- C2: FALSE as stated — the comparison sorts ONLY the current record set
by identity key; the expected baseline is compared in file order.  With no
blacklist, the baseline `[{_id:"b"},{_id:"a"}]` against the same two
records fetched as `[{_id:"a"},{_id:"b"}]` fails with a content mismatch,
while the permuted baseline `[{_id:"a"},{_id:"b"}]` passes: permuting the
expected baseline file changes the pass/fail outcome. -/
theorem C2_counterexample :
    verifyJsonSpec ⟨[]⟩ [entB, entA] [entA, entB] = .contentMismatch ∧
    verifyJsonSpec ⟨[]⟩ [entA, entB] [entA, entB] = .pass :=
  ⟨by decide, by decide⟩

/-- Strict version of `recLe`: smaller-or-equal identity key and distinct
identity keys. -/
def recLt (a b : JValue) : Prop := recLe a b ∧ idKey a ≠ idKey b

instance : IsAntisymm JValue recLt :=
  ⟨fun _ _ h1 h2 => absurd (charListLe_antisymm _ _ h1.1 h2.1) h1.2⟩

theorem sorted_recLt_of_nodup {l : List JValue} (hs : l.Sorted recLe)
    (hd : (l.map idKey).Nodup) : l.Sorted recLt :=
  List.Pairwise.and hs (List.pairwise_map.mp hd)

/-- A list with pairwise-distinct identity keys has a unique `recLe`-sorted
arrangement, so `sortById` is invariant under permutation of its input. -/
theorem sortById_eq_of_perm {l1 l2 : List JValue} (hperm : l1.Perm l2)
    (hd : (l1.map idKey).Nodup) : sortById l1 = sortById l2 := by
  have h1 : (sortById l1).Perm l1 := List.perm_insertionSort recLe l1
  have h2 : (sortById l2).Perm l2 := List.perm_insertionSort recLe l2
  have hs1 : (sortById l1).Sorted recLe := List.sorted_insertionSort recLe l1
  have hs2 : (sortById l2).Sorted recLe := List.sorted_insertionSort recLe l2
  have hd1 : ((sortById l1).map idKey).Nodup := ((h1.map idKey).nodup_iff).mpr hd
  have hd' : (l2.map idKey).Nodup := ((hperm.map idKey).nodup_iff).mp hd
  have hd2 : ((sortById l2).map idKey).Nodup := ((h2.map idKey).nodup_iff).mpr hd'
  exact List.eq_of_perm_of_sorted (h1.trans (hperm.trans h2.symm))
    (sorted_recLt_of_nodup hs1 hd1) (sorted_recLt_of_nodup hs2 hd2)

/-- C2 (amended): the comparison sorts only the CURRENT record set by
identity key (the expected baseline is used in file order), so permuting
the fetched current records — whose filtered, normalized forms have
pairwise-distinct identity keys — never changes the outcome, while
permuting the expected baseline file's record order can change it. -/
theorem C2_sort_amended (spec : TestSpec) (expected fetched1 fetched2 : List JValue)
    (hperm : fetched1.Perm fetched2)
    (hd : (((fetched1.map fix_decimal_to_ints).map (filter_entity spec)).map idKey).Nodup) :
    verifyJsonSpec spec expected fetched1 = verifyJsonSpec spec expected fetched2 := by
  have hperm2 : ((fetched1.map fix_decimal_to_ints).map (filter_entity spec)).Perm
      ((fetched2.map fix_decimal_to_ints).map (filter_entity spec)) :=
    (hperm.map fix_decimal_to_ints).map (filter_entity spec)
  have hsort := sortById_eq_of_perm hperm2 hd
  simp only [verifyJsonSpec, hsort]

/-- C2 amended witness: fetching `[{_id:"b"},{_id:"a"}]` instead of
`[{_id:"a"},{_id:"b"}]` leaves the outcome unchanged — both pass against
the baseline `[{_id:"a"},{_id:"b"}]`. -/
theorem C2_sort_amended_witness :
    verifyJsonSpec ⟨[]⟩ [entA, entB] [entB, entA]
      = verifyJsonSpec ⟨[]⟩ [entA, entB] [entA, entB] ∧
    verifyJsonSpec ⟨[]⟩ [entA, entB] [entB, entA] = .pass := by
  have h := C2_sort_amended ⟨[]⟩ [entA, entB] [entB, entA] [entA, entB]
    (List.Perm.swap entA entB []) (by decide)
  exact ⟨h, h.trans (by decide)⟩

mutual
theorem fix_decimal_to_ints_idem : (v : JValue) →
    fix_decimal_to_ints (fix_decimal_to_ints v) = fix_decimal_to_ints v
  | .jnull => rfl
  | .jbool _ => rfl
  | .jint _ => rfl
  | .jstr _ => rfl
  | .jfloat ip frac => by
    by_cases h : textualEndsWithDot0 frac = true
    · simp [fix_decimal_to_ints, h]
    · simp [fix_decimal_to_ints, h]
  | .jobj fields => by simp [fix_decimal_to_ints, fixFields_idem fields]
  | .jarr items => by simp [fix_decimal_to_ints, fixArr_idem items]

theorem fixFields_idem : (fs : JFields) → fixFields (fixFields fs) = fixFields fs
  | .nil => rfl
  | .cons k v rest => by
    simp [fixFields, fix_decimal_to_ints_idem v, fixFields_idem rest]

theorem fixArr_idem : (xs : JArr) → fixArr (fixArr xs) = fixArr xs
  | .nil => rfl
  | .cons v rest => by
    simp [fixArr, fix_decimal_to_ints_idem v, fixArr_idem rest]
end

/-- C4: FALSE as stated — `_fix_decimal_to_ints` runs inside
`get_pipe_entities`, so only the CURRENT (fetched) records are normalized;
`expected_entities` is the baseline file as `json.load` returns it.  An
expected record with field value `3.0` against a current record with `3`
yields a content mismatch (the canonical texts are `3.0` vs `3`), where the
claim demands equality. -/
theorem C4_counterexample :
    verifyJsonSpec ⟨[]⟩ [entA30] [entA3] = .contentMismatch := by decide

/-- C4 (amended): the trailing-`.0` normalization is applied recursively
through nested structures, but only on the current (fetched) side: a fetched
`3.0` compares equal to an expected `3` (first conjunct), and normalizing
the fetched records before handing them to the comparison never changes any
outcome because they are normalized anyway (second conjunct) — while an
expected-side `3.0` against a fetched `3` stays a mismatch (the
counterexample). -/
theorem C4_numeric_amended :
    verifyJsonSpec ⟨[]⟩ [entA3] [entA30] = .pass ∧
    ∀ (spec : TestSpec) (expected fetched : List JValue),
      verifyJsonSpec spec expected (fetched.map fix_decimal_to_ints)
        = verifyJsonSpec spec expected fetched := by
  refine ⟨by decide, fun spec expected fetched => ?_⟩
  have hmap : (fetched.map fix_decimal_to_ints).map fix_decimal_to_ints
      = fetched.map fix_decimal_to_ints := by
    induction fetched with
    | nil => rfl
    | cons a t ih => simp [fix_decimal_to_ints_idem a, ih]
  simp only [verifyJsonSpec, hmap]

/-- State of the awaiting-init poll loop of `start_scheduler`
(src/sesam.py:983-998) between iterations. -/
inductive InitWaitState where
  | looping (timeout : ℚ)
  | brokeInit (timeout : ℚ)
  | exitedLoop (timeout : ℚ)
deriving DecidableEq, Repr

/-- The awaiting-init poll loop of `start_scheduler` after `n` completed
iterations.  `sleep_interval` is `args.scheduler_poll_frequency/1000` and
never changes; `statuses k` is what the `k`-th call of
`get_scheduler_status` returns (`none` when it raised — the `except` body is
`pass`).  The loop guard is `while sleep_interval > 0`; an iteration breaks
out when the status is `"init"`, and otherwise sleeps and decrements
`timeout` by `sleep_interval` — the decremented `timeout` is never
consulted by the guard. -/
def initWaitRun (sleep_interval : ℚ) (statuses : Nat → Option String) (timeout : ℚ) :
    Nat → InitWaitState
  | 0 => .looping timeout
  | n + 1 =>
    match initWaitRun sleep_interval statuses timeout n with
    | .looping t =>
      if sleep_interval > 0 then
        if statuses n = some "init" then .brokeInit t
        else .looping (t - sleep_interval)
      else .exitedLoop t
    | s => s

/-- After the loop, `start_scheduler` raises `"Failed to initialise
scheduler"` iff `sleep_interval <= 0` (src/sesam.py:996-998); the timeout
budget plays no part in the test. -/
def initWaitRaisesAfterLoop (sleep_interval : ℚ) : Bool :=
  decide (sleep_interval ≤ 0)

/-- C6: the code contradicts the claimed wall-clock bound.  With a positive
poll interval and a status sequence that never reports `"init"`, the
awaiting-init loop is still running after every number of iterations — its
guard tests the constant `sleep_interval`, not the decremented `timeout`
(which falls without bound, here to `timeout - n·sleep_interval`) — and the
timeout hard error is unreachable, since `initWaitRaisesAfterLoop` needs
`sleep_interval ≤ 0`. -/
theorem C6_init_wait_never_times_out (si timeout : ℚ) (statuses : Nat → Option String)
    (hsi : 0 < si) (hnever : ∀ k, statuses k ≠ some "init") (n : Nat) :
    initWaitRun si statuses timeout n = .looping (timeout - n * si) ∧
    initWaitRaisesAfterLoop si = false := by
  constructor
  · induction n with
    | zero => simp [initWaitRun]
    | succ n ih =>
      simp only [initWaitRun, ih]
      rw [if_pos hsi, if_neg (hnever n)]
      congr 1
      push_cast
      ring
  · simpa [initWaitRaisesAfterLoop] using hsi

/-- C6 witness: poll frequency 5000 ms (`sleep_interval = 5`), timeout
budget 300 s, the status endpoint forever answering `"running"`: after 100
iterations the budget stands at −200 yet the loop is still running. -/
theorem C6_init_wait_never_times_out_witness :
    initWaitRun 5 (fun _ => some "running") 300 100 = .looping (-200) ∧
    initWaitRaisesAfterLoop 5 = false := by
  have h := C6_init_wait_never_times_out 5 300 (fun _ => some "running")
    (by norm_num) (fun k => by simp) 100
  refine ⟨h.1.trans ?_, h.2⟩
  norm_num

/-- `SesamCmdClient.get_scheduler_status` (src/sesam.py:1025-1036): the
scheduler proxy reply is JSON; a dict reply yields its `"state"` member
(a `KeyError` on a missing member, like a transport error, is re-raised by
the `except` clause), and any non-dict reply is logged at debug level and
mapped to the string `"unknown"`. -/
def get_scheduler_status (reply : Except Unit JValue) : Except Unit JValue :=
  match reply with
  | .error e => .error e
  | .ok (.jobj fields) =>
    match fields.lookup "state" with
    | some v => .ok v
    | none => .error ()
  | .ok _ => .ok (.jstr "unknown")

/-- What one iteration of the running-phase poll loop in `run` does with the
status reply. -/
inductive PollStep where
  | finishedSuccess
  | finishedFailed
  | keepPolling
  | raised
deriving DecidableEq, Repr

/-- One iteration of the running-phase loop (src/sesam.py:1067-1080):
`"success"` breaks out, `"failed"` logs and returns, a raised error
propagates, and every other status value sleeps and polls again. -/
def run_poll_step (reply : Except Unit JValue) : PollStep :=
  match get_scheduler_status reply with
  | .error _ => .raised
  | .ok v =>
    if v = .jstr "success" then .finishedSuccess
    else if v = .jstr "failed" then .finishedFailed
    else .keepPolling

/-- How `run` leaves its poll loop. -/
inductive RunOutcome where
  | successBreak
  | failedReturn
  | exnPropagated
deriving DecidableEq, Repr

/-- The poll loop of `run` over a trace of status replies: `successBreak`
breaks out and `run` logs success; `failedReturn` is the `return` statement
taken on an explicit `"failed"` status — a NORMAL return; `exnPropagated`
is an exception re-raised by the `except` clause; `none` means the trace
ended with the loop still polling. -/
def runPollLoop : List (Except Unit JValue) → Option RunOutcome
  | [] => none
  | r :: rest =>
    match run_poll_step r with
    | .finishedSuccess => some .successBreak
    | .finishedFailed => some .failedReturn
    | .raised => some .exnPropagated
    | .keepPolling => runPollLoop rest

/-- `run`'s observable result for a reply trace: the outcome, paired with
whether the `finally` block removed the scheduler system — which it does on
every terminal path exactly when `-dont-remove-scheduler` was not given
(src/sesam.py:1085-1088). -/
def runResult (dont_remove_scheduler : Bool) (replies : List (Except Unit JValue)) :
    Option (RunOutcome × Bool) :=
  (runPollLoop replies).map fun o => (o, !dont_remove_scheduler)

/-- A status reply whose JSON is `{"state": s}`. -/
def okState (s : String) : Except Unit JValue :=
  .ok (.jobj (.cons "state" (.jstr s) .nil))

/-- C7: FALSE as stated — on an explicit `"failed"` scheduler status, `run`
logs an error and RETURNS NORMALLY (the `finally` clause still removes the
scheduler when removal is enabled); no error propagates to the caller.  The
one-reply trace `{"state":"failed"}` with removal enabled produces the
normal-return outcome, which is not the propagated-error outcome. -/
theorem C7_counterexample :
    runResult false [okState "failed"] = some (.failedReturn, true) ∧
    RunOutcome.failedReturn ≠ RunOutcome.exnPropagated :=
  ⟨by decide, by decide⟩

/-- C7 (amended): whenever the running-phase poll loop terminates — success
break, explicit `"failed"` status, or an exception — the transient scheduler
is removed exactly when retention was not requested; an exception propagates
out of `run`, but an explicit `"failed"` status makes `run` return normally
instead of raising. -/
theorem C7_run_failure_amended (dr : Bool) (replies : List (Except Unit JValue))
    (o : RunOutcome) (h : runPollLoop replies = some o) :
    runResult dr replies = some (o, !dr) := by
  simp [runResult, h]

/-- C7 amended witness: a run polling `"running"` then `"failed"` with
`-dont-remove-scheduler` given returns normally and leaves the scheduler
in place. -/
theorem C7_run_failure_amended_witness :
    runResult true [okState "running", okState "failed"]
      = some (.failedReturn, false) :=
  C7_run_failure_amended true [okState "running", okState "failed"]
    .failedReturn (by decide)

/-- C10: a JSON reply that is not an object makes `get_scheduler_status`
return the string `"unknown"` instead of raising, and the running-phase
loop classifies every status value other than `"success"` and `"failed"` —
`"unknown"` included — as still running and keeps polling. -/
theorem C10_unknown_status_keeps_polling (v : JValue)
    (hnotdict : ∀ fields, v ≠ .jobj fields) :
    (get_scheduler_status (.ok v) = .ok (.jstr "unknown") ∧
     run_poll_step (.ok v) = .keepPolling) ∧
    ∀ w : JValue, w ≠ .jstr "success" → w ≠ .jstr "failed" →
      run_poll_step (.ok (.jobj (.cons "state" w .nil))) = .keepPolling := by
  constructor
  · have hget : get_scheduler_status (.ok v) = .ok (.jstr "unknown") := by
      cases v with
      | jobj fields => exact absurd rfl (hnotdict fields)
      | jnull => rfl
      | jbool b => rfl
      | jint n => rfl
      | jfloat ip frac => rfl
      | jstr s => rfl
      | jarr items => rfl
    refine ⟨hget, ?_⟩
    simp [run_poll_step, hget]
  · intro w hw1 hw2
    simp [run_poll_step, get_scheduler_status, JFields.lookup, hw1, hw2]

/-- C10 witness: the non-object reply `[]` yields status `"unknown"` and the
loop keeps polling on it. -/
theorem C10_unknown_status_keeps_polling_witness :
    get_scheduler_status (.ok (.jarr .nil)) = .ok (.jstr "unknown") ∧
    run_poll_step (.ok (.jarr .nil)) = .keepPolling :=
  (C10_unknown_status_keeps_polling (.jarr .nil) (fun _ h => JValue.noConfusion h)).1

/-- A file system, as the list of existing file paths. -/
abbrev FileSys := List String

/-- `os.path.isfile(p)`. -/
def isfile (fs : FileSys) (p : String) : Bool := fs.contains p

/-- `TestSpec`'s default artifact name (src/sesam.py:41-46): for a spec file
`<name>.test.json` the spec's `name` is the path with that suffix dropped,
and its `file` — unless overridden by a `file` member inside the spec — is
`name + ".json"`.  Spec files are found by
`glob.glob("expected/*.test.json")`, so a default `file` already carries the
`expected/` directory prefix. -/
def default_spec_file (spec_filename : String) : String :=
  String.mk (spec_filename.toList.take
    (spec_filename.toList.length - ".test.json".toList.length)) ++ ".json"

/-- Observable outcome of the ignore-branch of `load_test_specs` for one
spec: the resulting file system, whether the still-exists warning was
logged, and whether `os.remove` raised `FileNotFoundError`. -/
structure IgnoreBranchResult where
  fs : FileSys
  warned : Bool
  raised : Bool
deriving DecidableEq, Repr

/-- The ignore-branch of `SesamCmdClient.load_test_specs`
(src/sesam.py:657-667) for one spec with `ignore=true`, given the spec's
`file` attribute: the existence probe tests `"expected/" ++ file` — even
though the default `file` already starts with `expected/` — and when it
hits, reconcile mode (`update=True`) calls `os.remove(file)` on the
UNPREFIXED path (raising `FileNotFoundError` when that path is absent),
while plain verify mode only logs a warning. -/
def ignore_branch (update : Bool) (file : String) (fs : FileSys) : IgnoreBranchResult :=
  if isfile fs ("expected/" ++ file) then
    if update then
      if isfile fs file then
        { fs := fs.erase file, warned := false, raised := false }
      else
        { fs := fs, warned := false, raised := true }
    else
      { fs := fs, warned := true, raised := false }
  else
    { fs := fs, warned := false, raised := false }

/-- C8: the code contradicts the claim.  For the default spec
`expected/foo.test.json` with `ignore=true`, the referenced baseline file is
`expected/foo.json`; with that baseline present, reconcile mode deletes
nothing (the existence probe looks at the doubled path
`expected/expected/foo.json`) and plain verify mode does not warn either
(first two conjuncts).  And for a spec that overrides `file` to the bare
`foo.json`, the probe hits but reconcile mode raises `FileNotFoundError`
from `os.remove("foo.json")` — failing the run and leaving the baseline in
place — instead of deleting `expected/foo.json` (last conjunct). -/
theorem C8_ignore_branch_broken :
    default_spec_file "expected/foo.test.json" = "expected/foo.json" ∧
    ignore_branch true "expected/foo.json" ["expected/foo.test.json", "expected/foo.json"]
      = ⟨["expected/foo.test.json", "expected/foo.json"], false, false⟩ ∧
    ignore_branch false "expected/foo.json" ["expected/foo.test.json", "expected/foo.json"]
      = ⟨["expected/foo.test.json", "expected/foo.json"], false, false⟩ ∧
    ignore_branch true "foo.json" ["expected/foo.test.json", "expected/foo.json"]
      = ⟨["expected/foo.test.json", "expected/foo.json"], false, true⟩ :=
  ⟨by decide, by decide, by decide, by decide⟩

/-- One reported discrepancy of the `status` config-sync comparison. -/
inductive SyncReport where
  | remoteOnly (f : String)
  | localOnly (f : String)
  | contentDiff (f : String)
deriving DecidableEq, Repr

/-- The file name a discrepancy report is about. -/
def reportName : SyncReport → String
  | .remoteOnly f => f
  | .localOnly f => f
  | .contentDiff f => f

/-- Lexicographic-by-code-point order on strings (Python string `<=`). -/
def strLeB (a b : String) : Prop := charListLe a.toList b.toList = true

instance : DecidableRel strLeB := fun _ _ => instDecidableEqBool _ _

/-- `sorted(names)`. -/
def sortStrings (l : List String) : List String := List.insertionSort strLeB l

/-- `SesamCmdClient.status` (src/sesam.py:589-617), with the local and
remote configuration archives given as (file name, decoded text) lists:
both name lists are sorted; the first loop reports every remote name
missing locally (in sorted order), the second loop walks the local names
reporting the ones missing remotely and, for names present on both sides,
comparing the decoded contents and reporting a difference (with a unified
diff, not modelled beyond the report).  `diff_found` is set by every
report, and the closing log line says the config is NOT in sync iff it was
set. -/
def status_compare (localFiles remoteFiles : List (String × String)) :
    Bool × List SyncReport :=
  let remote_files := sortStrings (remoteFiles.map Prod.fst)
  let local_files := sortStrings (localFiles.map Prod.fst)
  let rep1 := remote_files.filterMap fun r =>
    if local_files.contains r then none else some (SyncReport.remoteOnly r)
  let rep2 := local_files.filterMap fun l =>
    if remote_files.contains l then
      if ((localFiles.find? (fun kv => kv.1 == l)).map Prod.snd)
          ≠ ((remoteFiles.find? (fun kv => kv.1 == l)).map Prod.snd) then
        some (SyncReport.contentDiff l)
      else none
    else some (SyncReport.localOnly l)
  let reports := rep1 ++ rep2
  (!reports.isEmpty, reports)

/-- C9: FALSE as stated in its ordering part.  For local `{a.json, b.json}`
and remote `{b.json, c.json}` with identical `b.json` content, the status
comparison reports exactly the two divergences and is not-in-sync, but the
report order is `c.json` (remote-only) before `a.json` (local-only) — the
discrepancy list is not ordered lexicographically by file name. -/
theorem C9_counterexample :
    ((status_compare [("a.json", "AA"), ("b.json", "BB")]
        [("b.json", "BB"), ("c.json", "CC")]).2.map reportName = ["c.json", "a.json"]) ∧
    sortStrings ["c.json", "a.json"] ≠ ["c.json", "a.json"] :=
  ⟨by decide, by decide⟩

/-- C9 (amended): local `{a.json, b.json}` and remote `{b.json, c.json}`
with identical `b.json` content report exactly two divergences and
not-in-sync; the report lists remote-only files first and local-side files
second, each group lexicographically ordered — here `c.json` before
`a.json`. -/
theorem C9_config_sync_amended :
    status_compare [("a.json", "AA"), ("b.json", "BB")]
        [("b.json", "BB"), ("c.json", "CC")]
      = (true, [.remoteOnly "c.json", .localOnly "a.json"]) := by decide

end Sesam
